import Mathlib

/-!
Verification development for the react-query-guide repository: a shallow
embedding of the Users component glue code in src/src/Users.js and of the
client-side query-cache state machine the application relies on, together
with theorems settling the specified properties.
-/

set_option autoImplicit false

namespace RQGuide

/-- A user record as served by the REST endpoint: an id and a name. -/
structure User where
  id : Nat
  name : String
  deriving DecidableEq, Repr

/-- The payload of a successful GET of the users resource. -/
abbrev Payload := List User

/-- A generic error value carrying kind and message, as all failure kinds
surface identically to the controller layer. -/
structure ErrorInfo where
  kind : String
  msg : String
  deriving DecidableEq, Repr

/-- A GET request: just the absolute URL. -/
structure GetRequest where
  url : String
  deriving DecidableEq, Repr

/-- A POST request to the users endpoint: the URL and the body, which is a
record with a single name field. -/
structure PostRequest where
  url : String
  bodyName : String
  deriving DecidableEq, Repr

/-- Embeds fetchUsers from src/src/Users.js: a GET of the users endpoint. -/
def fetchUsersReq : GetRequest :=
  { url := "http://localhost:4000/users" }

/-- Embeds addNewUser from src/src/Users.js: a POST to the users endpoint
whose body carries the name field with exactly the given string. -/
def addNewUser (userName : String) : PostRequest :=
  { url := "http://localhost:4000/users", bodyName := userName }

/-- Embeds the Add User button handler of src/src/Users.js: clicking runs
mutate applied to the current username state, whose mutation function is
addNewUser, so the issued request is addNewUser of the current username. -/
def clickAddUser (username : String) : PostRequest :=
  addNewUser username

/-! ## JavaScript-level model of the Users component render

The component reads loosely typed data: the axios response, its data field,
each array element and its fields may all be absent. Evaluation is modelled
in Except so that an access that JavaScript would fault on is an error
value, while the optional chaining the source actually uses short-circuits
to an absent value instead. -/

/-- A loosely typed user record as the render sees it: id and name may be
absent. -/
structure UserJS where
  id : Option Nat
  name : Option String
  deriving DecidableEq, Repr

/-- A loosely typed axios response: the data field (the user array) may be
absent, and each element may itself be absent. -/
structure AxiosResponse where
  data : Option (List (Option UserJS))
  deriving DecidableEq, Repr

/-- The query result read by the Users component: isLoading and a possibly
absent response object. -/
structure QueryResultJS where
  isLoading : Bool
  data : Option AxiosResponse
  deriving DecidableEq, Repr

/-- The render output of the Users component: either the loading heading, or
the main view carrying the input value and one paragraph per user, each with
a possibly absent key and text. -/
inductive RenderOut where
  | loadingView
  | usersView (inputValue : String) (items : List (Option Nat × Option String))
  deriving DecidableEq, Repr

/-- Embeds the render body of the Users component in src/src/Users.js.
If isLoading it returns the loading heading; otherwise it renders the input
and maps over the user array reached through the optional chain on the
query data: each absent link in the chain short-circuits to an empty list,
and each absent user or field renders as an absent value, exactly as the
source's optional chaining does. A JavaScript fault would be an Except
error; the source never produces one. -/
def Users (username : String) (q : QueryResultJS) : Except String RenderOut :=
  if q.isLoading then
    Except.ok RenderOut.loadingView
  else
    let items : List (Option Nat × Option String) :=
      match q.data with
      | none => []
      | some resp =>
        match resp.data with
        | none => []
        | some users =>
          users.map (fun u =>
            match u with
            | none => (none, none)
            | some user => (user.id, user.name))
    Except.ok (RenderOut.usersView username items)

/-! ## Query cache registry

The caching state machine lives in the third-party react-query library and
is not part of the repository sources; it is modelled here from the spec's
component design, section 4.2. -/

/-- The status of a cache entry or query controller. -/
inductive QStatus where
  | idle
  | loading
  | success
  | error
  deriving DecidableEq, Repr

/-- An opaque comparable identifier naming a logical resource. -/
abbrev QueryKey := String

/-- Modelled from the spec: the CacheEntry record of the data model, holding
the last known result for a key, its freshness state, in-flight request
tracking, and subscriber bookkeeping for eviction. -/
structure CacheEntry where
  data : Option Payload
  status : QStatus
  fetchedAt : Nat
  staleAfter : Nat
  retainFor : Nat
  error : Option ErrorInfo
  inFlight : Bool
  subscribers : Nat
  unobservedSince : Option Nat
  deriving DecidableEq, Repr

/-- The cache registry: an association of query keys to cache entries, the
process-wide single source of truth per key. -/
abbrev Registry := List (QueryKey × CacheEntry)

/-- Modelled from the spec: the registry get operation, reading the current
entry for a key without triggering a fetch or modifying anything. The pair
returned makes explicit that the registry is unchanged by a read. -/
def regGet (r : Registry) (k : QueryKey) : Option CacheEntry :=
  match r with
  | [] => none
  | (k2, e) :: rest => if k2 = k then some e else regGet rest k

/-- The get operation seen as a state transformer, so that it can be stated
that a cache read leaves the registry untouched. -/
def regGetOp (r : Registry) (k : QueryKey) : Option CacheEntry × Registry :=
  (regGet r k, r)

/-- Apply a function to the entry stored under a key, leaving other pairs
unchanged. -/
def updateEntry (r : Registry) (k : QueryKey) (f : CacheEntry → CacheEntry) :
    Registry :=
  match r with
  | [] => []
  | (k2, e) :: rest =>
    if k2 = k then (k2, f e) :: updateEntry rest k f
    else (k2, e) :: updateEntry rest k f

/-- Modelled from the spec: the fresh entry created on first query
activation, status loading with the fetch in flight, no data or error yet,
default staleAfter of zero and default retainFor of five minutes, with the
activating subscriber attached. -/
def freshEntry : CacheEntry :=
  { data := none
    status := QStatus.loading
    fetchedAt := 0
    staleAfter := 0
    retainFor := 300000
    error := none
    inFlight := true
    subscribers := 1
    unobservedSince := none }

/-- Modelled from the spec: markLoading sets status to loading if no fetch
is already in flight for the key and reports whether a new fetch should be
issued; when a fetch is already in flight it changes nothing and reports
false, so the caller must not issue a duplicate request. On a key with no
entry it creates the entry (first activation) and issues the fetch. -/
def markLoading (r : Registry) (k : QueryKey) : Registry × Bool :=
  match regGet r k with
  | none => ((k, freshEntry) :: r, true)
  | some e =>
    if e.inFlight then (r, false)
    else
      (updateEntry r k (fun e2 =>
        { e2 with status := QStatus.loading, inFlight := true }), true)

/-- Modelled from the spec: upsert on fetch success atomically transitions
status to success, stores the payload, stamps fetchedAt with the completion
time, clears the error and the in-flight marker. -/
def upsertSuccess (r : Registry) (k : QueryKey) (p : Payload) (now : Nat) :
    Registry :=
  updateEntry r k (fun e =>
    { e with data := some p
             status := QStatus.success
             error := none
             fetchedAt := now
             inFlight := false })

/-- Modelled from the spec: upsert on fetch failure atomically transitions
status to error, preserves any previously cached data, stores the error,
stamps fetchedAt with the completion time and clears the in-flight marker. -/
def upsertError (r : Registry) (k : QueryKey) (err : ErrorInfo) (now : Nat) :
    Registry :=
  updateEntry r k (fun e =>
    { e with status := QStatus.error
             error := some err
             fetchedAt := now
             inFlight := false })

/-- Modelled from the spec: an entry is due for eviction once it has no
active subscriber and retainFor has elapsed since it became unobserved. -/
def shouldEvict (e : CacheEntry) (now : Nat) : Bool :=
  e.subscribers == 0 &&
    (match e.unobservedSince with
     | some t => decide (t + e.retainFor < now)
     | none => false)

/-- Modelled from the spec: evict removes the entry for a key once no
subscriber remains and retainFor has elapsed; otherwise the registry is
unchanged. -/
def evict (r : Registry) (k : QueryKey) (now : Nat) : Registry :=
  match regGet r k with
  | none => r
  | some e =>
    if shouldEvict e now then r.filter (fun p => !(p.1 == k)) else r

/-- The per-entry invariant of the data model: success implies data present
and error implies error present. -/
def EntryInv (e : CacheEntry) : Prop :=
  (e.status = QStatus.success → e.data.isSome = true) ∧
  (e.status = QStatus.error → e.error.isSome = true)

/-- The registry-wide invariant: every stored entry satisfies the entry
invariant. -/
def RegInv (r : Registry) : Prop :=
  ∀ k e, regGet r k = some e → EntryInv e

/-! ## Query controller system

Modelled from the spec, sections 4.3 and 5: refetch triggers consult
markLoading, at most one fetch is in flight per key, later callers attach
to the in-flight request, and a completion is applied through upsert and
delivered to every attached caller. -/

/-- The result of a fetch: a payload on success or an error value. -/
abbrev FetchResult := Except ErrorInfo Payload

deriving instance DecidableEq for Except

/-- Modelled from the spec: the observable system state, holding the cache
registry, a count of network calls issued so far, the callers attached to
in-flight requests per key, and the results delivered to callers. -/
structure SysState where
  reg : Registry
  networkCalls : Nat
  waiters : List (QueryKey × Nat)
  delivered : List (Nat × FetchResult)
  deriving DecidableEq, Repr

/-- Modelled from the spec: a refetch trigger by a caller for a key. It runs
markLoading; a network call is issued only when markLoading reports that no
fetch is in flight, and in every case the caller attaches to the in-flight
request so as to observe its eventual result. -/
def refetchStep (s : SysState) (k : QueryKey) (caller : Nat) : SysState :=
  let ml := markLoading s.reg k
  { s with reg := ml.1
           networkCalls := s.networkCalls + (if ml.2 then 1 else 0)
           waiters := s.waiters ++ [(k, caller)] }

/-- Modelled from the spec: completion of the in-flight fetch for a key.
The result is applied to the registry through upsert and delivered to every
caller attached to that key, who all observe this same result. -/
def completeStep (s : SysState) (k : QueryKey) (res : FetchResult) (now : Nat) :
    SysState :=
  { reg :=
      match res with
      | Except.ok p => upsertSuccess s.reg k p now
      | Except.error e => upsertError s.reg k e now
    networkCalls := s.networkCalls
    waiters := s.waiters.filter (fun w => !(w.1 == k))
    delivered := s.delivered ++
      (s.waiters.filter (fun w => w.1 == k)).map (fun w => (w.2, res)) }

/-- A sequence of concurrent refetch triggers for one key, one per caller,
none of which is interleaved with a completion. -/
def triggerAll (s : SysState) (k : QueryKey) (callers : List Nat) : SysState :=
  callers.foldl (fun st c => refetchStep st k c) s

/-- The status the query controller exposes for a key: idle when the key has
no cache entry yet, otherwise the entry status. -/
def controllerStatus (s : SysState) (k : QueryKey) : QStatus :=
  match regGet s.reg k with
  | none => QStatus.idle
  | some e => e.status

/-- Modelled from the spec: the configuration surface of the query
controller. -/
structure QueryConfig where
  queryKey : QueryKey
  enabled : Bool
  staleAfter : Nat
  retainFor : Nat
  deriving DecidableEq, Repr

/-- Modelled from the spec: activation on mount triggers a refetch unless
the configuration disables the query, in which case nothing happens. -/
def mountStep (cfg : QueryConfig) (s : SysState) (caller : Nat) : SysState :=
  if cfg.enabled then refetchStep s cfg.queryKey caller else s

/-! ## Mutation controller and application glue

The mutation controller is modelled from the spec, section 4.4; the wiring
of the mutation to the query refetch is embedded from src/src/Users.js. -/

/-- The status of a single mutation run. -/
inductive MStatus where
  | idle
  | pending
  | success
  | error
  deriving DecidableEq, Repr

/-- The outcome of one mutate call: its terminal status, its error if any,
and the list of arguments the configured onSuccess callback was invoked
with during the run. -/
structure MutationRun where
  status : MStatus
  lastError : Option ErrorInfo
  onSuccessCalls : List User
  deriving DecidableEq, Repr

/-- Modelled from the spec: a single mutate call wraps one HTTP call. On
success the run terminates in success and onSuccess is invoked exactly once
with the result; on failure the run terminates in error with the error
recorded and onSuccess is never invoked. -/
def runMutation (httpResult : Except ErrorInfo User) : MutationRun :=
  match httpResult with
  | Except.ok u =>
    { status := MStatus.success, lastError := none, onSuccessCalls := [u] }
  | Except.error e =>
    { status := MStatus.error, lastError := some e, onSuccessCalls := [] }

/-- Modelled from the spec: the external JSON server holding the users
resource, with an online flag so that HTTP calls can fail. -/
structure Server where
  users : List User
  nextId : Nat
  online : Bool
  deriving DecidableEq, Repr

/-- Modelled from the spec: the server answer to a GET of the users
endpoint: the current user list, or a network error when unreachable. -/
def serverGet (s : Server) (req : GetRequest) : FetchResult :=
  if s.online && (req.url == "http://localhost:4000/users") then
    Except.ok s.users
  else
    Except.error { kind := "network", msg := "request failed" }

/-- Modelled from the spec: the server answer to a POST of a user: it
appends a record echoing an assigned id and returns it, or fails with a
network error when unreachable, leaving the resource unchanged. -/
def serverPost (s : Server) (req : PostRequest) : Server × Except ErrorInfo User :=
  if s.online && (req.url == "http://localhost:4000/users") then
    ({ s with users := s.users ++ [{ id := s.nextId, name := req.bodyName }]
              nextId := s.nextId + 1 },
     Except.ok { id := s.nextId, name := req.bodyName })
  else
    (s, Except.error { kind := "network", msg := "request failed" })

/-- The application state for the end-to-end model: the server and the
query controller read model exposed to the Users component. -/
structure AppState where
  server : Server
  queryData : Option Payload
  queryError : Option ErrorInfo
  queryStatus : QStatus
  deriving DecidableEq, Repr

/-- Embeds the refetch of the users query of src/src/Users.js: it issues the
fetchUsers GET against the server and applies the result to the exposed
read model, preserving previous data on failure. -/
def refetchApp (a : AppState) : AppState :=
  match serverGet a.server fetchUsersReq with
  | Except.ok p =>
    { a with queryData := some p
             queryStatus := QStatus.success
             queryError := none }
  | Except.error e =>
    { a with queryStatus := QStatus.error, queryError := some e }

/-- Embeds the mutation of src/src/Users.js: useMutation of addNewUser with
onSuccess set to refetch. A mutate call posts the new user to the server;
when the call succeeds the onSuccess callback runs the query refetch, and
when it fails nothing further happens. -/
def mutateApp (a : AppState) (name : String) : AppState × MutationRun :=
  let pr := serverPost a.server (addNewUser name)
  let a2 := { a with server := pr.1 }
  match pr.2 with
  | Except.ok u => (refetchApp a2, runMutation (Except.ok u))
  | Except.error e => (a2, runMutation (Except.error e))

end RQGuide

namespace RQGuide

/-! ## Registry lemmas -/

theorem regGet_updateEntry_same (r : Registry) (k : QueryKey)
    (f : CacheEntry → CacheEntry) :
    regGet (updateEntry r k f) k = (regGet r k).map f := by
  induction r with
  | nil => rfl
  | cons p rest ih =>
    obtain ⟨k2, e⟩ := p
    by_cases h : k2 = k <;> simp [updateEntry, regGet, h, ih]

theorem regGet_updateEntry_ne (r : Registry) (k k2 : QueryKey)
    (f : CacheEntry → CacheEntry) (h : k2 ≠ k) :
    regGet (updateEntry r k f) k2 = regGet r k2 := by
  induction r with
  | nil => rfl
  | cons p rest ih =>
    obtain ⟨k3, e⟩ := p
    by_cases h3 : k3 = k
    · subst h3
      simp [updateEntry, regGet, Ne.symm h, h, ih]
    · by_cases h4 : k3 = k2 <;> simp [updateEntry, regGet, h3, h4, h, ih]

theorem regGet_filter_out (r : Registry) (k : QueryKey) :
    regGet (r.filter (fun p => !(p.1 == k))) k = none := by
  induction r with
  | nil => rfl
  | cons p rest ih =>
    obtain ⟨k2, e⟩ := p
    by_cases h : k2 = k
    · simp [List.filter_cons, beq_iff_eq, h, ih]
    · simp [List.filter_cons, beq_iff_eq, h, regGet, ih]

theorem regGet_filter_out_ne (r : Registry) (k k2 : QueryKey) (h : k2 ≠ k) :
    regGet (r.filter (fun p => !(p.1 == k))) k2 = regGet r k2 := by
  induction r with
  | nil => rfl
  | cons p rest ih =>
    obtain ⟨k3, e⟩ := p
    by_cases h3 : k3 = k
    · subst h3
      simp [List.filter_cons, beq_iff_eq, regGet, Ne.symm h, ih]
    · by_cases h4 : k3 = k2 <;>
        simp [List.filter_cons, beq_iff_eq, regGet, h3, h4, h, ih]

/-! ## System lemmas -/

theorem triggerAll_cons (s : SysState) (k : QueryKey) (c : Nat) (cs : List Nat) :
    triggerAll s k (c :: cs) = triggerAll (refetchStep s k c) k cs := rfl

theorem refetchStep_waiters (s : SysState) (k : QueryKey) (c : Nat) :
    (refetchStep s k c).waiters = s.waiters ++ [(k, c)] := rfl

theorem trigger_fresh (s : SysState) (k : QueryKey) (c : Nat)
    (h : ∀ e, regGet s.reg k = some e → e.inFlight = false) :
    (refetchStep s k c).networkCalls = s.networkCalls + 1 ∧
    ∃ e2, regGet (refetchStep s k c).reg k = some e2 ∧ e2.inFlight = true := by
  cases hr : regGet s.reg k with
  | none =>
    refine ⟨by simp [refetchStep, markLoading, hr], freshEntry, ?_, rfl⟩
    simp [refetchStep, markLoading, hr, regGet]
  | some e =>
    have hf := h e hr
    refine ⟨by simp [refetchStep, markLoading, hr, hf],
      { e with status := QStatus.loading, inFlight := true }, ?_, rfl⟩
    simp [refetchStep, markLoading, hr, hf, regGet_updateEntry_same]

theorem trigger_inflight_eq (s : SysState) (k : QueryKey) (c : Nat)
    (e : CacheEntry) (hr : regGet s.reg k = some e) (hf : e.inFlight = true) :
    refetchStep s k c = { s with waiters := s.waiters ++ [(k, c)] } := by
  cases s
  simp_all [refetchStep, markLoading]

theorem triggerAll_inflight (k : QueryKey) (cs : List Nat) :
    ∀ (s : SysState) (e : CacheEntry), regGet s.reg k = some e →
      e.inFlight = true →
      triggerAll s k cs =
        { s with waiters := s.waiters ++ cs.map (fun c => (k, c)) } := by
  induction cs with
  | nil =>
    intro s e hr hf
    cases s
    simp [triggerAll]
  | cons c cs ih =>
    intro s e hr hf
    rw [triggerAll_cons, trigger_inflight_eq s k c e hr hf]
    rw [ih { s with waiters := s.waiters ++ [(k, c)] } e hr hf]
    cases s
    simp

theorem trigger_preserves_entry_data (s : SysState) (k : QueryKey) (c : Nat)
    (e : CacheEntry) (hr : regGet s.reg k = some e) :
    ∃ e2, regGet (refetchStep s k c).reg k = some e2 ∧ e2.data = e.data := by
  by_cases hf : e.inFlight = true
  · exact ⟨e, by simp [refetchStep, markLoading, hr, hf], rfl⟩
  · have hf2 : e.inFlight = false := by simpa using hf
    refine ⟨{ e with status := QStatus.loading, inFlight := true }, ?_, rfl⟩
    simp [refetchStep, markLoading, hr, hf2, regGet_updateEntry_same]

theorem triggerAll_preserves_entry_data (k : QueryKey) (cs : List Nat) :
    ∀ (s : SysState) (e : CacheEntry), regGet s.reg k = some e →
      ∃ e2, regGet (triggerAll s k cs).reg k = some e2 ∧ e2.data = e.data := by
  induction cs with
  | nil => exact fun s e h => ⟨e, h, rfl⟩
  | cons c cs ih =>
    intro s e h
    obtain ⟨e1, h1, hd1⟩ := trigger_preserves_entry_data s k c e h
    obtain ⟨e2, h2, hd2⟩ := ih (refetchStep s k c) e1 h1
    exact ⟨e2, h2, hd2.trans hd1⟩

theorem regInv_updateEntry (r : Registry) (k : QueryKey)
    (f : CacheEntry → CacheEntry) (hf : ∀ e, EntryInv (f e))
    (hInv : RegInv r) : RegInv (updateEntry r k f) := by
  intro k2 e2 h
  by_cases hk : k2 = k
  · subst hk
    rw [regGet_updateEntry_same] at h
    obtain ⟨e, _, rfl⟩ := Option.map_eq_some'.1 h
    exact hf e
  · rw [regGet_updateEntry_ne r k k2 f hk] at h
    exact hInv k2 e2 h

/-- Claim C9: rendering the Users component is total in the query result.
For every state the render evaluates to a defined output without faulting;
when the response is absent it renders the empty list, and an absent user
record renders as a partial item with absent key and text. -/
theorem users_render_total :
    (∀ (username : String) (q : QueryResultJS), (Users username q).isOk = true) ∧
    Users "" { isLoading := false, data := none } =
      Except.ok (RenderOut.usersView "" []) ∧
    Users "" { isLoading := false, data := some { data := none } } =
      Except.ok (RenderOut.usersView "" []) ∧
    Users "" { isLoading := false, data := some { data := some [none] } } =
      Except.ok (RenderOut.usersView "" [(none, none)]) := by
  refine ⟨?_, rfl, rfl, rfl⟩
  intro username q
  by_cases h : q.isLoading <;> simp [Users, h, Except.isOk, Except.toBool]

/-- Claim C10: the Add User action performs no input validation. For every
username, including the empty string, clicking Add User issues exactly the
POST built by addNewUser: the users URL with body name exactly as typed. -/
theorem add_user_no_validation :
    (∀ (s : String), clickAddUser s =
      { url := "http://localhost:4000/users", bodyName := s }) ∧
    clickAddUser "" = { url := "http://localhost:4000/users", bodyName := "" } := by
  exact ⟨fun s => rfl, rfl⟩

/-- Claim C1: at most one in-flight request per key. If N concurrent refetch
triggers for the same key are issued while no fetch is in flight and none
has completed, exactly one network call is made, the count is unchanged by
the completion, and every one of the N callers observes the same resolved
result. -/
theorem single_inflight_coalescing (s : SysState) (k : QueryKey)
    (callers : List Nat) (res : FetchResult) (now : Nat)
    (hnf : ∀ e, regGet s.reg k = some e → e.inFlight = false)
    (hne : callers ≠ []) :
    (triggerAll s k callers).networkCalls = s.networkCalls + 1 ∧
    (completeStep (triggerAll s k callers) k res now).networkCalls =
      s.networkCalls + 1 ∧
    ∀ c ∈ callers,
      (c, res) ∈ (completeStep (triggerAll s k callers) k res now).delivered := by
  obtain ⟨c, cs, rfl⟩ := List.exists_cons_of_ne_nil hne
  obtain ⟨hcalls, e2, hre, hif⟩ := trigger_fresh s k c hnf
  have hT : triggerAll s k (c :: cs) =
      { refetchStep s k c with
        waiters := (refetchStep s k c).waiters ++ cs.map (fun c2 => (k, c2)) } := by
    rw [triggerAll_cons]
    exact triggerAll_inflight k cs (refetchStep s k c) e2 hre hif
  have hN : (triggerAll s k (c :: cs)).networkCalls = s.networkCalls + 1 := by
    rw [hT]
    exact hcalls
  refine ⟨hN, hN, ?_⟩
  intro c2 hc2
  have hw : (k, c2) ∈ (triggerAll s k (c :: cs)).waiters := by
    rw [hT]
    show (k, c2) ∈ (refetchStep s k c).waiters ++ cs.map (fun c3 => (k, c3))
    rcases List.mem_cons.1 hc2 with h | h
    · subst h
      apply List.mem_append_left
      rw [refetchStep_waiters]
      exact List.mem_append_right _ (List.mem_singleton.2 rfl)
    · exact List.mem_append_right _ (List.mem_map_of_mem _ h)
  show (c2, res) ∈ (completeStep (triggerAll s k (c :: cs)) k res now).delivered
  apply List.mem_append_right
  refine List.mem_map.2 ⟨(k, c2), ?_, rfl⟩
  exact List.mem_filter.2 ⟨hw, by simp⟩

/-- Witness for C1 at a concrete input: three concurrent refetch triggers on
an empty registry issue exactly one network call and each caller is
delivered the single resolved result. -/
theorem single_inflight_coalescing_witness :
    (triggerAll { reg := [], networkCalls := 0, waiters := [], delivered := [] }
        "users" [1, 2, 3]).networkCalls = 0 + 1 ∧
    (completeStep
        (triggerAll { reg := [], networkCalls := 0, waiters := [], delivered := [] }
          "users" [1, 2, 3])
        "users" (Except.ok [{ id := 1, name := "A" }]) 5).networkCalls = 0 + 1 ∧
    ∀ c ∈ [1, 2, 3],
      (c, (Except.ok [{ id := 1, name := "A" }] : FetchResult)) ∈
        (completeStep
          (triggerAll { reg := [], networkCalls := 0, waiters := [], delivered := [] }
            "users" [1, 2, 3])
          "users" (Except.ok [{ id := 1, name := "A" }]) 5).delivered :=
  single_inflight_coalescing
    { reg := [], networkCalls := 0, waiters := [], delivered := [] }
    "users" [1, 2, 3] (Except.ok [{ id := 1, name := "A" }]) 5
    (fun e h => by simp [regGet] at h) (by decide)

/-- Claim C2: stale-while-revalidate. Starting from a cache entry populated
by a successful fetch, any sequence of refetch triggers leaves the exposed
data at the old value at every point before the new fetch resolves, and the
completion of the new fetch replaces data by the new payload in one step. -/
theorem stale_while_revalidate (s : SysState) (k : QueryKey) (d : Payload)
    (cs : List Nat) (p : Payload) (now : Nat)
    (he : ∃ e, regGet s.reg k = some e ∧ e.status = QStatus.success ∧
      e.data = some d) :
    (∀ e2, regGet (triggerAll s k cs).reg k = some e2 → e2.data = some d) ∧
    (∃ e3, regGet (completeStep (triggerAll s k cs) k (Except.ok p) now).reg k =
        some e3 ∧
      e3.data = some p ∧ e3.status = QStatus.success ∧ e3.error = none) := by
  obtain ⟨e, hr, hs, hd⟩ := he
  obtain ⟨e2, h2, hd2⟩ := triggerAll_preserves_entry_data k cs s e hr
  constructor
  · intro e4 h4
    have : e4 = e2 := by
      rw [h2] at h4
      exact (Option.some.inj h4).symm
    rw [this, hd2, hd]
  · refine ⟨{ e2 with data := some p
                      status := QStatus.success
                      error := none
                      fetchedAt := now
                      inFlight := false }, ?_, rfl, rfl, rfl⟩
    simp [completeStep, upsertSuccess, regGet_updateEntry_same, h2]

/-- Witness for C2 at a concrete input: a cached successful entry keeps its
old payload through two refetch triggers and is replaced by the new payload
on completion. -/
theorem stale_while_revalidate_witness :
    (∀ e2,
      regGet (triggerAll
          { reg := [("users",
              { data := some [{ id := 1, name := "A" }]
                status := QStatus.success
                fetchedAt := 1
                staleAfter := 0
                retainFor := 300000
                error := none
                inFlight := false
                subscribers := 1
                unobservedSince := none })]
            networkCalls := 1, waiters := [], delivered := [] }
          "users" [4, 5]).reg "users" = some e2 →
        e2.data = some [{ id := 1, name := "A" }]) ∧
    (∃ e3,
      regGet (completeStep (triggerAll
          { reg := [("users",
              { data := some [{ id := 1, name := "A" }]
                status := QStatus.success
                fetchedAt := 1
                staleAfter := 0
                retainFor := 300000
                error := none
                inFlight := false
                subscribers := 1
                unobservedSince := none })]
            networkCalls := 1, waiters := [], delivered := [] }
          "users" [4, 5]) "users"
          (Except.ok [{ id := 1, name := "A" }, { id := 2, name := "B" }])
          7).reg "users" = some e3 ∧
      e3.data = some [{ id := 1, name := "A" }, { id := 2, name := "B" }] ∧
      e3.status = QStatus.success ∧ e3.error = none) :=
  stale_while_revalidate
    { reg := [("users",
        { data := some [{ id := 1, name := "A" }]
          status := QStatus.success
          fetchedAt := 1
          staleAfter := 0
          retainFor := 300000
          error := none
          inFlight := false
          subscribers := 1
          unobservedSince := none })]
      networkCalls := 1, waiters := [], delivered := [] }
    "users" [{ id := 1, name := "A" }] [4, 5]
    [{ id := 1, name := "A" }, { id := 2, name := "B" }] 7
    ⟨{ data := some [{ id := 1, name := "A" }]
       status := QStatus.success
       fetchedAt := 1
       staleAfter := 0
       retainFor := 300000
       error := none
       inFlight := false
       subscribers := 1
       unobservedSince := none }, by simp [regGet], rfl, rfl⟩

/-- Claim C3: error preserves prior data. Starting from a cache entry whose
data is the previously cached value, a refetch whose fetch fails leaves the
entry in error status with the old data unchanged and the error populated
alongside it. -/
theorem error_preserves_prior_data (s : SysState) (k : QueryKey) (c : Nat)
    (d : Payload) (err : ErrorInfo) (now : Nat)
    (he : ∃ e, regGet s.reg k = some e ∧ e.data = some d) :
    ∃ e2, regGet (completeStep (refetchStep s k c) k (Except.error err)
        now).reg k = some e2 ∧
      e2.status = QStatus.error ∧ e2.data = some d ∧ e2.error = some err := by
  obtain ⟨e, hr, hd⟩ := he
  obtain ⟨e1, h1, hd1⟩ := trigger_preserves_entry_data s k c e hr
  refine ⟨{ e1 with status := QStatus.error
                    error := some err
                    fetchedAt := now
                    inFlight := false }, ?_, rfl, ?_, rfl⟩
  · simp [completeStep, upsertError, regGet_updateEntry_same, h1]
  · show e1.data = some d
    rw [hd1, hd]

/-- Witness for C3 at a concrete input: a failing refetch on an entry caching
a two-element list keeps that list and records the error. -/
theorem error_preserves_prior_data_witness :
    ∃ e2, regGet (completeStep (refetchStep
        { reg := [("users",
            { data := some [{ id := 1, name := "A" }, { id := 2, name := "B" }]
              status := QStatus.success
              fetchedAt := 1
              staleAfter := 0
              retainFor := 300000
              error := none
              inFlight := false
              subscribers := 1
              unobservedSince := none })]
          networkCalls := 1, waiters := [], delivered := [] } "users" 9)
        "users" (Except.error { kind := "network", msg := "request failed" })
        7).reg "users" = some e2 ∧
      e2.status = QStatus.error ∧
      e2.data = some [{ id := 1, name := "A" }, { id := 2, name := "B" }] ∧
      e2.error = some { kind := "network", msg := "request failed" } :=
  error_preserves_prior_data
    { reg := [("users",
        { data := some [{ id := 1, name := "A" }, { id := 2, name := "B" }]
          status := QStatus.success
          fetchedAt := 1
          staleAfter := 0
          retainFor := 300000
          error := none
          inFlight := false
          subscribers := 1
          unobservedSince := none })]
      networkCalls := 1, waiters := [], delivered := [] }
    "users" 9 [{ id := 1, name := "A" }, { id := 2, name := "B" }]
    { kind := "network", msg := "request failed" } 7
    ⟨{ data := some [{ id := 1, name := "A" }, { id := 2, name := "B" }]
       status := QStatus.success
       fetchedAt := 1
       staleAfter := 0
       retainFor := 300000
       error := none
       inFlight := false
       subscribers := 1
       unobservedSince := none }, by simp [regGet], rfl⟩

/-- Claim C6: the cache entry invariant is preserved by every registry
operation. Success implies data present and error implies error present
across markLoading, upsert on success, upsert on failure and evict; a cache
read leaves the registry untouched; markLoading and evict never change a
stored fetchedAt, while upsert on completion stamps it with the completion
time. -/
theorem cache_entry_invariant (r : Registry) (k : QueryKey) (p : Payload)
    (err : ErrorInfo) (now : Nat) (hInv : RegInv r) :
    RegInv (markLoading r k).1 ∧
    RegInv (upsertSuccess r k p now) ∧
    RegInv (upsertError r k err now) ∧
    RegInv (evict r k now) ∧
    (regGetOp r k).2 = r ∧
    (∀ k2 e e2, regGet r k2 = some e →
      regGet (markLoading r k).1 k2 = some e2 → e2.fetchedAt = e.fetchedAt) ∧
    (∀ k2 e e2, regGet r k2 = some e →
      regGet (evict r k now) k2 = some e2 → e2.fetchedAt = e.fetchedAt) ∧
    (∀ e, regGet r k = some e →
      ∃ e2, regGet (upsertSuccess r k p now) k = some e2 ∧
        e2.fetchedAt = now) := by
  refine ⟨?_, ?_, ?_, ?_, rfl, ?_, ?_, ?_⟩
  · cases hr : regGet r k with
    | none =>
      intro k2 e h
      simp only [markLoading, hr, regGet] at h
      by_cases hk : k = k2
      · rw [if_pos hk] at h
        cases h
        exact ⟨fun hc => (nomatch hc), fun hc => (nomatch hc)⟩
      · rw [if_neg hk] at h
        exact hInv k2 e h
    | some e0 =>
      by_cases hf : e0.inFlight = true
      · intro k2 e h
        simp only [markLoading, hr, hf, if_true] at h
        exact hInv k2 e h
      · have hf2 : e0.inFlight = false := by simpa using hf
        intro k2 e h
        simp only [markLoading, hr, hf2, Bool.false_eq_true, if_false] at h
        exact regInv_updateEntry r k
          (fun e2 => { e2 with status := QStatus.loading, inFlight := true })
          (fun e3 => ⟨fun hc => (nomatch hc), fun hc => (nomatch hc)⟩)
          hInv k2 e h
  · exact regInv_updateEntry r k
      (fun e2 => { e2 with data := some p
                           status := QStatus.success
                           error := none
                           fetchedAt := now
                           inFlight := false })
      (fun e3 => ⟨fun hc => rfl, fun hc => (nomatch hc)⟩) hInv
  · exact regInv_updateEntry r k
      (fun e2 => { e2 with status := QStatus.error
                           error := some err
                           fetchedAt := now
                           inFlight := false })
      (fun e3 => ⟨fun hc => (nomatch hc), fun hc => rfl⟩) hInv
  · cases hr : regGet r k with
    | none =>
      simp only [evict, hr]
      exact hInv
    | some e0 =>
      by_cases hs : shouldEvict e0 now = true
      · simp only [evict, hr, hs, if_true]
        intro k2 e h
        by_cases hk : k2 = k
        · subst hk
          rw [regGet_filter_out] at h
          exact (nomatch h)
        · rw [regGet_filter_out_ne r k k2 hk] at h
          exact hInv k2 e h
      · have hs2 : shouldEvict e0 now = false := by simpa using hs
        simp only [evict, hr, hs2, Bool.false_eq_true, if_false]
        exact hInv
  · intro k2 e e2 h h2
    cases hr : regGet r k with
    | none =>
      simp only [markLoading, hr, regGet] at h2
      by_cases hk : k = k2
      · subst hk
        rw [h] at hr
        exact (nomatch hr)
      · rw [if_neg hk, h] at h2
        cases h2
        rfl
    | some e0 =>
      by_cases hf : e0.inFlight = true
      · simp only [markLoading, hr, hf, if_true] at h2
        rw [h] at h2
        cases h2
        rfl
      · have hf2 : e0.inFlight = false := by simpa using hf
        simp only [markLoading, hr, hf2, Bool.false_eq_true, if_false] at h2
        by_cases hk : k2 = k
        · subst hk
          rw [regGet_updateEntry_same, h] at h2
          cases h2
          rfl
        · rw [regGet_updateEntry_ne r k k2 _ hk, h] at h2
          cases h2
          rfl
  · intro k2 e e2 h h2
    cases hr : regGet r k with
    | none =>
      simp only [evict, hr] at h2
      rw [h] at h2
      cases h2
      rfl
    | some e0 =>
      by_cases hs : shouldEvict e0 now = true
      · simp only [evict, hr, hs, if_true] at h2
        by_cases hk : k2 = k
        · subst hk
          rw [regGet_filter_out] at h2
          exact (nomatch h2)
        · rw [regGet_filter_out_ne r k k2 hk, h] at h2
          cases h2
          rfl
      · have hs2 : shouldEvict e0 now = false := by simpa using hs
        simp only [evict, hr, hs2, Bool.false_eq_true, if_false] at h2
        rw [h] at h2
        cases h2
        rfl
  · intro e h
    refine ⟨{ e with data := some p
                     status := QStatus.success
                     error := none
                     fetchedAt := now
                     inFlight := false }, ?_, rfl⟩
    rw [upsertSuccess, regGet_updateEntry_same, h]
    rfl

/-- Witness for C6 at a concrete input: the invariant holds of every
operation applied to a singleton registry with a successful entry. -/
theorem cache_entry_invariant_witness :
    RegInv (markLoading [("users", freshEntry)] "users").1 ∧
    RegInv (upsertSuccess [("users", freshEntry)] "users"
      [{ id := 1, name := "A" }] 4) ∧
    RegInv (upsertError [("users", freshEntry)] "users"
      { kind := "network", msg := "request failed" } 4) ∧
    RegInv (evict [("users", freshEntry)] "users" 4) ∧
    (regGetOp [("users", freshEntry)] "users").2 = [("users", freshEntry)] ∧
    (∀ k2 e e2, regGet [("users", freshEntry)] k2 = some e →
      regGet (markLoading [("users", freshEntry)] "users").1 k2 = some e2 →
      e2.fetchedAt = e.fetchedAt) ∧
    (∀ k2 e e2, regGet [("users", freshEntry)] k2 = some e →
      regGet (evict [("users", freshEntry)] "users" 4) k2 = some e2 →
      e2.fetchedAt = e.fetchedAt) ∧
    (∀ e, regGet [("users", freshEntry)] "users" = some e →
      ∃ e2, regGet (upsertSuccess [("users", freshEntry)] "users"
          [{ id := 1, name := "A" }] 4) "users" = some e2 ∧
        e2.fetchedAt = 4) :=
  cache_entry_invariant [("users", freshEntry)] "users"
    [{ id := 1, name := "A" }] { kind := "network", msg := "request failed" } 4
    (fun k e h => by
      rw [regGet] at h
      by_cases hk : "users" = k
      · rw [if_pos hk] at h
        cases h
        exact ⟨fun hc => (nomatch hc), fun hc => (nomatch hc)⟩
      · rw [if_neg hk] at h
        exact (nomatch h))

/-- Claim C7: a query configured with enabled set to false performs no
fetch on mount and the controller stays idle until an explicit refetch,
which remains callable and then issues a fetch and moves to loading. -/
theorem enabled_false_suppresses (cfg : QueryConfig) (s : SysState)
    (c c2 : Nat) (h : cfg.enabled = false) :
    mountStep cfg s c = s ∧
    (regGet s.reg cfg.queryKey = none →
      controllerStatus (mountStep cfg s c) cfg.queryKey = QStatus.idle ∧
      (refetchStep (mountStep cfg s c) cfg.queryKey c2).networkCalls =
        s.networkCalls + 1 ∧
      controllerStatus (refetchStep (mountStep cfg s c) cfg.queryKey c2)
        cfg.queryKey = QStatus.loading) := by
  have hm : mountStep cfg s c = s := by
    rw [mountStep, h]
    simp
  refine ⟨hm, fun hr => ⟨?_, ?_, ?_⟩⟩
  · rw [hm, controllerStatus, hr]
  · rw [hm]
    simp [refetchStep, markLoading, hr]
  · rw [hm]
    simp [controllerStatus, refetchStep, markLoading, hr, regGet, freshEntry]

/-- Witness for C7 at a concrete input: with enabled set to false, mounting
on an empty registry changes nothing and a later manual refetch fires. -/
theorem enabled_false_suppresses_witness :
    mountStep
      { queryKey := "users", enabled := false, staleAfter := 0,
        retainFor := 300000 }
      { reg := [], networkCalls := 0, waiters := [], delivered := [] } 1 =
      { reg := [], networkCalls := 0, waiters := [], delivered := [] } ∧
    (regGet ([] : Registry) "users" = none →
      controllerStatus (mountStep
        { queryKey := "users", enabled := false, staleAfter := 0,
          retainFor := 300000 }
        { reg := [], networkCalls := 0, waiters := [], delivered := [] } 1)
        "users" = QStatus.idle ∧
      (refetchStep (mountStep
        { queryKey := "users", enabled := false, staleAfter := 0,
          retainFor := 300000 }
        { reg := [], networkCalls := 0, waiters := [], delivered := [] } 1)
        "users" 2).networkCalls = 0 + 1 ∧
      controllerStatus (refetchStep (mountStep
        { queryKey := "users", enabled := false, staleAfter := 0,
          retainFor := 300000 }
        { reg := [], networkCalls := 0, waiters := [], delivered := [] } 1)
        "users" 2) "users" = QStatus.loading) :=
  enabled_false_suppresses
    { queryKey := "users", enabled := false, staleAfter := 0,
      retainFor := 300000 }
    { reg := [], networkCalls := 0, waiters := [], delivered := [] } 1 2 rfl

/-- Claim C8: eviction. An entry with no active subscriber for longer than
its retainFor duration is removed by evict, and a subsequent activation of
the same key is a cold fetch: markLoading issues a fresh network fetch and
installs a fresh entry holding no cached data. -/
theorem eviction_cold_fetch (r : Registry) (k : QueryKey) (now t : Nat)
    (e : CacheEntry) (he : regGet r k = some e) (h0 : e.subscribers = 0)
    (hu : e.unobservedSince = some t) (ht : t + e.retainFor < now) :
    regGet (evict r k now) k = none ∧
    (markLoading (evict r k now) k).2 = true ∧
    regGet (markLoading (evict r k now) k).1 k = some freshEntry ∧
    freshEntry.data = none := by
  have hs : shouldEvict e now = true := by
    rw [shouldEvict, hu]
    simp [h0, ht]
  have hgone : regGet (evict r k now) k = none := by
    simp only [evict, he, hs, if_true]
    exact regGet_filter_out r k
  refine ⟨hgone, ?_, ?_, rfl⟩
  · rw [markLoading, hgone]
  · rw [markLoading, hgone]
    simp [regGet]

/-- Witness for C8 at a concrete input: an unobserved entry past its
retention is evicted and the key reactivates with a cold fetch. -/
theorem eviction_cold_fetch_witness :
    regGet (evict [("users",
      { data := some [{ id := 1, name := "A" }]
        status := QStatus.success
        fetchedAt := 1
        staleAfter := 0
        retainFor := 300000
        error := none
        inFlight := false
        subscribers := 0
        unobservedSince := some 10 })] "users" 300011) "users" = none ∧
    (markLoading (evict [("users",
      { data := some [{ id := 1, name := "A" }]
        status := QStatus.success
        fetchedAt := 1
        staleAfter := 0
        retainFor := 300000
        error := none
        inFlight := false
        subscribers := 0
        unobservedSince := some 10 })] "users" 300011) "users").2 = true ∧
    regGet (markLoading (evict [("users",
      { data := some [{ id := 1, name := "A" }]
        status := QStatus.success
        fetchedAt := 1
        staleAfter := 0
        retainFor := 300000
        error := none
        inFlight := false
        subscribers := 0
        unobservedSince := some 10 })] "users" 300011) "users").1 "users" =
      some freshEntry ∧
    freshEntry.data = none :=
  eviction_cold_fetch
    [("users",
      { data := some [{ id := 1, name := "A" }]
        status := QStatus.success
        fetchedAt := 1
        staleAfter := 0
        retainFor := 300000
        error := none
        inFlight := false
        subscribers := 0
        unobservedSince := some 10 })]
    "users" 300011 10
    { data := some [{ id := 1, name := "A" }]
      status := QStatus.success
      fetchedAt := 1
      staleAfter := 0
      retainFor := 300000
      error := none
      inFlight := false
      subscribers := 0
      unobservedSince := some 10 }
    (by simp [regGet]) rfl rfl (by decide)

/-- Claim C4: for every mutate call, the configured onSuccess callback runs
exactly once with the result when the HTTP call resolves successfully, and
never when it fails; in the application a failed mutate also leaves the
server resource unchanged and records the error. -/
theorem onSuccess_exactly_once (u : User) (err : ErrorInfo) (a : AppState)
    (name : String) :
    (runMutation (Except.ok u)).onSuccessCalls = [u] ∧
    (runMutation (Except.ok u)).status = MStatus.success ∧
    (runMutation (Except.error err)).onSuccessCalls = [] ∧
    (runMutation (Except.error err)).status = MStatus.error ∧
    (runMutation (Except.error err)).lastError = some err ∧
    (mutateApp { a with server := { a.server with online := false } }
      name).2.onSuccessCalls = [] ∧
    (mutateApp { a with server := { a.server with online := false } }
      name).2.status = MStatus.error ∧
    (mutateApp { a with server := { a.server with online := false } }
      name).1.server.users = a.server.users := by
  refine ⟨rfl, rfl, rfl, rfl, rfl, ?_, ?_, ?_⟩ <;>
    simp [mutateApp, serverPost, runMutation]

/-- Claim C5: mutation triggers refetch. A successful mutate of a new name
posts it to the server, then the configured onSuccess runs the query
refetch, so the exposed data equals the server's updated list, which
contains the newly added name. -/
theorem mutation_triggers_refetch (a : AppState) (name : String)
    (h : a.server.online = true) :
    (mutateApp a name).1.queryData =
      some (a.server.users ++ [{ id := a.server.nextId, name := name }]) ∧
    ({ id := a.server.nextId, name := name } : User) ∈
      ((mutateApp a name).1.queryData.getD []) ∧
    (mutateApp a name).1.queryStatus = QStatus.success ∧
    (mutateApp a name).2.onSuccessCalls =
      [{ id := a.server.nextId, name := name }] := by
  refine ⟨?_, ?_, ?_, ?_⟩ <;>
    simp [mutateApp, serverPost, addNewUser, refetchApp, serverGet,
      fetchUsersReq, runMutation, h]

/-- Witness for C5 at a concrete input: adding the name Charlie to a server
holding one user leaves the query data equal to the updated two-element
list, which contains Charlie. -/
theorem mutation_triggers_refetch_witness :
    (mutateApp
      { server := { users := [{ id := 1, name := "A" }], nextId := 2,
                    online := true }
        queryData := some [{ id := 1, name := "A" }]
        queryError := none
        queryStatus := QStatus.success } "Charlie").1.queryData =
      some ([{ id := 1, name := "A" }] ++ [{ id := 2, name := "Charlie" }]) ∧
    ({ id := 2, name := "Charlie" } : User) ∈
      ((mutateApp
        { server := { users := [{ id := 1, name := "A" }], nextId := 2,
                      online := true }
          queryData := some [{ id := 1, name := "A" }]
          queryError := none
          queryStatus := QStatus.success } "Charlie").1.queryData.getD []) ∧
    (mutateApp
      { server := { users := [{ id := 1, name := "A" }], nextId := 2,
                    online := true }
        queryData := some [{ id := 1, name := "A" }]
        queryError := none
        queryStatus := QStatus.success } "Charlie").1.queryStatus =
      QStatus.success ∧
    (mutateApp
      { server := { users := [{ id := 1, name := "A" }], nextId := 2,
                    online := true }
        queryData := some [{ id := 1, name := "A" }]
        queryError := none
        queryStatus := QStatus.success } "Charlie").2.onSuccessCalls =
      [{ id := 2, name := "Charlie" }] :=
  mutation_triggers_refetch
    { server := { users := [{ id := 1, name := "A" }], nextId := 2,
                  online := true }
      queryData := some [{ id := 1, name := "A" }]
      queryError := none
      queryStatus := QStatus.success } "Charlie" rfl

end RQGuide
